import Mathlib

/-!
Verification of the BSD-socket ABI compatibility shim in
`src/ulib/axlibc/c/socket.c` (rukos).

The shim targets LP64 little-endian platforms (the `#if LONG_MAX > INT_MAX`
branch is active; `sizeof(long) = sizeof(size_t) = 8`).  Byte buffers are
modelled as `List Nat` (one entry per byte); machine integers are `Nat`/`Int`.
The struct layouts referenced by the code (`struct msghdr`,
`struct cmsghdr`) live in musl-derived headers that are not among the
provided sources; they are reproduced here from the fields the code itself
manipulates (`__pad1`, `__pad2`, `cmsg_len`, `sizeof(struct cmsghdr)`),
following the musl LP64 little-endian layout the code presupposes:
`struct cmsghdr` is 16 bytes, a 32-bit `cmsg_len` at offset 0, a single
4-byte reserved field `__pad1` at offset 4, `cmsg_level` at 8 and
`cmsg_type` at 12.
-/

/-- Alignment used by the code's `__CMSG_LEN` and `CMSG_ALIGN` macros:
`(len + sizeof(long) - 1) & ~(sizeof(long) - 1)`, i.e. round `len` up to the
next multiple of the 8-byte machine word. -/
def cmsgAlign (n : Nat) : Nat := (n + 7) / 8 * 8

/-- Size in bytes of `struct cmsghdr` on the LP64 targets.  Modelled from the
spec: the header struct itself is defined in headers outside the provided
sources; a control-message record header holds a byte length, a level, a
type tag and the platform-reserved padding, 16 bytes in total. -/
def sizeofCmsghdr : Nat := 16

/-- The code's `CMSG_SPACE(len) = CMSG_ALIGN(len) + CMSG_ALIGN(sizeof(struct cmsghdr))`. -/
def CMSG_SPACE (len : Nat) : Nat := cmsgAlign len + cmsgAlign sizeofCmsghdr

/-- Size in bytes of the call-local scratch buffer
`struct cmsghdr chbuf[CMSG_SPACE(255*sizeof(int))/sizeof(struct cmsghdr)+1]`
(evaluates to 66 headers = 1056 bytes). -/
def chbufSize : Nat := (CMSG_SPACE (255 * 4) / sizeofCmsghdr + 1) * sizeofCmsghdr

/-- Byte of a buffer at index `i` (0 when out of range). -/
def byteAt (l : List Nat) (i : Nat) : Nat := l.getD i 0

/-- The 32-bit little-endian `cmsg_len` field of the record starting at `off`. -/
def cmsgLen32 (l : List Nat) (off : Nat) : Nat :=
  byteAt l off + 256 * byteAt l (off + 1) + 65536 * byteAt l (off + 2) +
    16777216 * byteAt l (off + 3)

/-- Effect of `c->__pad1 = 0` on the record starting at `off`: the 4 reserved
bytes at offsets `off+4 .. off+7` are cleared. -/
def zeroPadAt (l : List Nat) (off : Nat) : List Nat :=
  (((l.set (off + 4) 0).set (off + 5) 0).set (off + 6) 0).set (off + 7) 0

/-- Condition under which `CMSG_NXTHDR` yields a further record: the macro
returns null when `cmsg_len < sizeof(struct cmsghdr)` or
`__CMSG_LEN(cmsg) + sizeof(struct cmsghdr) >= __MHDR_END(mhdr) - cmsg`,
so a next record exists exactly when `sizeof(struct cmsghdr) <= len` and
`__CMSG_LEN + sizeof(struct cmsghdr) < L - off` (with `L` the control-data
length and `off` the current record's offset). -/
def cmsgHasNext (L off len : Nat) : Prop :=
  sizeofCmsghdr ≤ len ∧ cmsgAlign len + sizeofCmsghdr < L - off

instance instDecidableCmsgHasNext (L off len : Nat) : Decidable (cmsgHasNext L off len) := by
  unfold cmsgHasNext
  exact inferInstance

/-- The body of the loop `for (c=CMSG_FIRSTHDR(&h); c; c=CMSG_NXTHDR(&h,c))
c->__pad1 = 0;` starting at record offset `off` of a control buffer whose
declared length is `L`.  `fuel` is a structural bound on the number of
iterations; the loop advances by at least 16 bytes per step, so `fuel = L`
is always sufficient (established by the traversal theorems below). -/
def repackFrom : Nat → List Nat → Nat → Nat → List Nat
  | 0, ctl, _, _ => ctl
  | fuel + 1, ctl, L, off =>
    if cmsgHasNext L off (cmsgLen32 (zeroPadAt ctl off) off) then
      repackFrom fuel (zeroPadAt ctl off) L
        (off + cmsgAlign (cmsgLen32 (zeroPadAt ctl off) off))
    else zeroPadAt ctl off

/-- Offsets of the records visited by the loop of `repackFrom` (same fuel,
same buffer evolution, same `CMSG_NXTHDR` guard). -/
def visitsFrom : Nat → List Nat → Nat → Nat → List Nat
  | 0, _, _, _ => []
  | fuel + 1, ctl, L, off =>
    if cmsgHasNext L off (cmsgLen32 (zeroPadAt ctl off) off) then
      off :: visitsFrom fuel (zeroPadAt ctl off) L
        (off + cmsgAlign (cmsgLen32 (zeroPadAt ctl off) off))
    else [off]

/-- The whole repacking pass over a control buffer of declared length `L`:
`CMSG_FIRSTHDR` yields the record at offset 0 only when
`msg_controllen >= sizeof(struct cmsghdr)`; otherwise the loop body never
runs. -/
def repackControl (L : Nat) (ctl : List Nat) : List Nat :=
  if sizeofCmsghdr ≤ L then repackFrom L ctl L 0 else ctl

/-- Offsets of all records visited by the repacking pass. -/
def visitsControl (L : Nat) (ctl : List Nat) : List Nat :=
  if sizeofCmsghdr ≤ L then visitsFrom L ctl L 0 else []

/-- The step relation of the traversal: from a record at `o₁` the loop moves
to `o₂ = o₁ + __CMSG_LEN(o₁)` (the declared length rounded up to the machine
word), and it only does so when the `CMSG_NXTHDR` guard `cmsgHasNext` holds. -/
def cmsgStep (ctl : List Nat) (L : Nat) (o₁ o₂ : Nat) : Prop :=
  cmsgHasNext L o₁ (cmsgLen32 ctl o₁) ∧ o₂ = o₁ + cmsgAlign (cmsgLen32 ctl o₁)

/-- Spec-side counterpart for the refinement comparison of claim C3, written
from the spec's words: "a record exists only if the remaining space is
sufficient to contain another full header and its declared length does not
run past the end of the buffer". -/
def specNextRecordExists (ctl : List Nat) (L off : Nat) : Prop :=
  sizeofCmsghdr ≤ L - (off + cmsgAlign (cmsgLen32 ctl off)) ∧
    off + cmsgLen32 ctl off ≤ L

instance instDecidableSpecNext (ctl : List Nat) (L off : Nat) :
    Decidable (specNextRecordExists ctl L off) := by
  unfold specNextRecordExists
  exact inferInstance

/-- Shallow embedding of `struct msghdr` (musl LP64 little-endian field
order).  `msg_name` and the I/O segments are opaque to the shim; `msg_control`
is the byte region the control pointer addresses. -/
structure Msghdr where
  msg_name : List Nat
  msg_namelen : Nat
  msg_iov : List (List Nat)
  msg_iovlen : Nat
  __pad1 : Nat
  msg_control : List Nat
  msg_controllen : Nat
  __pad2 : Nat
  msg_flags : Nat
deriving DecidableEq

/-- Observable outcome of `sendmsg`: either it sets `errno` and returns -1
without invoking `ax_sendmsg`, or it invokes `ax_sendmsg` exactly once with
the (possibly rewritten) message descriptor and returns that call's result
unchanged. -/
inductive SendmsgOutcome where
  | err : Nat → SendmsgOutcome
  | send : Option Msghdr → SendmsgOutcome
deriving DecidableEq

/-- Value of `ENOMEM` (from `errno.h`, outside the provided sources). -/
def ENOMEM : Nat := 12

/-- Shallow embedding of `sendmsg` (the active `LONG_MAX > INT_MAX` branch):
copy the descriptor, clear its two reserved fields, and when the control
length is non-zero either fail with `ENOMEM` (control data larger than
`chbuf`) or copy the control bytes into the scratch buffer and clear the
reserved field of every record the `CMSG_FIRSTHDR`/`CMSG_NXTHDR` walk
visits.  `fd` and `flags` are forwarded untouched and are omitted. -/
def sendmsg (msg : Option Msghdr) : SendmsgOutcome :=
  match msg with
  | none => SendmsgOutcome.send none
  | some m =>
    let h : Msghdr := { m with __pad1 := 0, __pad2 := 0 }
    if h.msg_controllen ≠ 0 then
      if chbufSize < h.msg_controllen then SendmsgOutcome.err ENOMEM
      else
        SendmsgOutcome.send (some { h with
          msg_control := repackControl h.msg_controllen
            (h.msg_control.take h.msg_controllen) })
    else SendmsgOutcome.send (some h)

/-- Return value of `sendmsg` when the underlying transmit primitive
`ax_sendmsg` is the function `ax`: on the error path the primitive is not
consulted and -1 is returned, otherwise the primitive's result is returned
unchanged. -/
def sendmsgRun (ax : Option Msghdr → Int) (msg : Option Msghdr) : Int :=
  match sendmsg msg with
  | SendmsgOutcome.err _ => -1
  | SendmsgOutcome.send m => ax m

/-- Whether an outcome reached the underlying transmit primitive. -/
def isSend : SendmsgOutcome → Bool
  | SendmsgOutcome.err _ => false
  | SendmsgOutcome.send _ => true

/-- Control region of the descriptor handed to the transmit primitive
(empty if the primitive was not invoked or was invoked with null). -/
def sentControl : SendmsgOutcome → List Nat
  | SendmsgOutcome.send (some h) => h.msg_control
  | _ => []

/-- Flag and command constants from the platform headers (outside the
provided sources; Linux-generic values used by the rukos targets). -/
def SOCK_CLOEXEC : Nat := 524288

/-- Value of `SOCK_NONBLOCK` = `O_NONBLOCK` = 0o4000. -/
def SOCK_NONBLOCK : Nat := 2048

/-- Command for `fcntl`: set descriptor flags. -/
def F_SETFD : Nat := 2

/-- Command for `fcntl`: set file status flags. -/
def F_SETFL : Nat := 4

/-- Close-on-exec descriptor flag. -/
def FD_CLOEXEC : Nat := 1

/-- Non-blocking file status flag. -/
def O_NONBLOCK : Nat := 2048

/-- Value of `EINVAL` (from `errno.h`, outside the provided sources). -/
def EINVAL : Nat := 22

/-- The 32-bit pattern of `~(SOCK_CLOEXEC | SOCK_NONBLOCK)`: all bits other
than the two recognized accept-flag bits.  `flg & ~(SOCK_CLOEXEC |
SOCK_NONBLOCK) != 0` is rendered as `flg &&& acceptFlagComplement ≠ 0`. -/
def acceptFlagComplement : Nat := 4294967295 - (SOCK_CLOEXEC ||| SOCK_NONBLOCK)

/-- Results the underlying primitives would deliver: `acceptRet` is the
result of the `accept` call, `fcntlRet cmd arg` the result of a
`fcntl(fd, cmd, arg)` call (which `accept4` discards). -/
structure AcceptEnv where
  acceptRet : Int
  fcntlRet : Nat → Int → Int

/-- Observable behaviour of one `accept4` call: its return value, the
`errno` it itself assigns (if any), how many times it invoked the underlying
`accept` primitive, and the `fcntl` sub-calls it made, each recorded as
(command, argument, result delivered by the environment). -/
structure Accept4Result where
  ret : Int
  errno : Option Nat
  acceptCalls : Nat
  fcntlCalls : List (Nat × Int × Int)
deriving DecidableEq

/-- Shallow embedding of `accept4`: zero flags delegate directly; a flag bit
outside `SOCK_CLOEXEC | SOCK_NONBLOCK` fails with `EINVAL` before touching
`accept`; otherwise the `accept` result is returned as is, with best-effort
`fcntl` sub-calls (results discarded) on success. -/
def accept4 (env : AcceptEnv) (flg : Nat) : Accept4Result :=
  if flg = 0 then
    { ret := env.acceptRet, errno := none, acceptCalls := 1, fcntlCalls := [] }
  else if flg &&& acceptFlagComplement ≠ 0 then
    { ret := -1, errno := some EINVAL, acceptCalls := 0, fcntlCalls := [] }
  else
    if env.acceptRet < 0 then
      { ret := env.acceptRet, errno := none, acceptCalls := 1, fcntlCalls := [] }
    else
      { ret := env.acceptRet, errno := none, acceptCalls := 1,
        fcntlCalls :=
          (if flg &&& SOCK_CLOEXEC ≠ 0 then
            [(F_SETFD, (FD_CLOEXEC : Int), env.fcntlRet F_SETFD (FD_CLOEXEC : Int))]
          else []) ++
          (if flg &&& SOCK_NONBLOCK ≠ 0 then
            [(F_SETFL, (O_NONBLOCK : Int), env.fcntlRet F_SETFL (O_NONBLOCK : Int))]
          else []) }

/-- A flags bitset that is a subset of `{SOCK_CLOEXEC, SOCK_NONBLOCK}`. -/
def acceptFlagOf (c n : Bool) : Nat :=
  (if c then SOCK_CLOEXEC else 0) + (if n then SOCK_NONBLOCK else 0)

/-- Value of `ENOSYS` ("not implemented").  Modelled from the spec: the
`unimplemented` diagnostic macro is defined outside the provided sources;
per the spec it signals an unimplemented-operation condition and emits a
diagnostic, with no other effect on caller state. -/
def ENOSYS : Nat := 38

/-- Observable behaviour of `getsockopt`: return value, the error condition
it signals, and the caller-provided output buffers after the call. -/
structure GetsockoptResult where
  ret : Int
  errno : Option Nat
  optvalOut : List Nat
  optlenOut : Nat
deriving DecidableEq

/-- Shallow embedding of `getsockopt`: the body is `unimplemented();
return -1;` — it signals not-implemented, returns -1 and never writes the
caller's `optval`/`optlen` buffers. -/
def getsockopt (fd level optname : Int) (optval : List Nat) (optlen : Nat) :
    GetsockoptResult :=
  { ret := -1, errno := some ENOSYS, optvalOut := optval, optlenOut := optlen }

/-- Read `*(int *)optval` that `setsockopt` performs for its diagnostic
(little-endian 32-bit read of the option buffer). -/
def readInt32 (l : List Nat) : Nat := cmsgLen32 l 0

/-- Observable behaviour of `setsockopt`: return value, the error condition
it raises (none), and the diagnostic records it emits, one per call, carrying
the call's arguments. -/
structure SetsockoptResult where
  ret : Int
  errno : Option Nat
  diagnostics : List (Int × Int × Int × Nat × Nat)

/-- Shallow embedding of `setsockopt`: emits one diagnostic describing
`fd`, `level`, `optname`, `*(int *)optval` and `optlen`, performs no state
change and returns 0. -/
def setsockopt (fd level optname : Int) (optval : List Nat) (optlen : Nat) :
    SetsockoptResult :=
  { ret := 0, errno := none,
    diagnostics := [(fd, level, optname, readInt32 optval, optlen)] }

/-- Message descriptor whose control-data length exceeds the scratch
capacity by one byte. -/
def msgOversized : Msghdr :=
  { msg_name := [], msg_namelen := 0, msg_iov := [], msg_iovlen := 0,
    __pad1 := 3, msg_control := [], msg_controllen := 1057, __pad2 := 4,
    msg_flags := 0 }

/-- A well-formed 32-byte control block holding two records of 16 bytes
each.  The first record (offset 0) has `cmsg_len` 16 and nonzero reserved
bytes 4..7; the second record (offset 16) has `cmsg_len` 16 and reserved
byte 20 set to 171. -/
def ctlTrailing : List Nat :=
  [16, 0, 0, 0, 1, 1, 1, 1, 0, 0, 0, 0, 0, 0, 0, 0,
   16, 0, 0, 0, 171, 0, 0, 0, 0, 0, 0, 0, 0, 0, 0, 0]

/-- Message descriptor carrying `ctlTrailing` as its control block. -/
def msgTrailing : Msghdr :=
  { msg_name := [], msg_namelen := 0, msg_iov := [], msg_iovlen := 0,
    __pad1 := 0, msg_control := ctlTrailing, msg_controllen := 32,
    __pad2 := 0, msg_flags := 0 }

/-- Control block of one record carrying 253 descriptor entries:
`cmsg_len = 16 + 253*4 = 1028` (bytes 4, 4, 0, 0 little-endian), level and
type `SOL_SOCKET`/`SCM_RIGHTS` = 1, followed by the aligned payload. -/
def ctl253 : List Nat :=
  [4, 4, 0, 0, 9, 9, 9, 9, 1, 0, 0, 0, 1, 0, 0, 0] ++ List.replicate 1016 7

/-- Message descriptor whose control block carries one record with 253
descriptor entries (`msg_controllen = CMSG_SPACE(253*4) = 1032`). -/
def msg253 : Msghdr :=
  { msg_name := [], msg_namelen := 0, msg_iov := [], msg_iovlen := 0,
    __pad1 := 0, msg_control := ctl253, msg_controllen := CMSG_SPACE (253 * 4),
    __pad2 := 0, msg_flags := 0 }

/-- Message descriptor sized for one record with 400 descriptor entries
(`msg_controllen = CMSG_SPACE(400*4) = 1616`). -/
def msg400 : Msghdr :=
  { msg_name := [], msg_namelen := 0, msg_iov := [], msg_iovlen := 0,
    __pad1 := 0, msg_control := List.replicate 1616 0,
    msg_controllen := CMSG_SPACE (400 * 4), __pad2 := 0, msg_flags := 0 }

/-- Message descriptor with an empty control block and nonzero reserved
fields. -/
def msgNoCtl : Msghdr :=
  { msg_name := [1, 2], msg_namelen := 2, msg_iov := [[5]], msg_iovlen := 1,
    __pad1 := 7, msg_control := [9, 9], msg_controllen := 0, __pad2 := 8,
    msg_flags := 3 }

/-- A constant transmit primitive used as witness. -/
def axConst : Option Msghdr → Int := fun _ => 42

/-- Environment whose `accept` primitive succeeds with descriptor 5 and
whose `fcntl` primitive always fails. -/
def envFcntlFail : AcceptEnv := { acceptRet := 5, fcntlRet := fun _ _ => -1 }

/-- Environment whose `accept` primitive fails with -3. -/
def envAcceptFail : AcceptEnv := { acceptRet := -3, fcntlRet := fun _ _ => 0 }

/-- Environment with a successful `accept` primitive. -/
def env0 : AcceptEnv := { acceptRet := 5, fcntlRet := fun _ _ => 0 }

lemma cmsgAlign_ge (n : Nat) : n ≤ cmsgAlign n := by
  have h := Nat.div_add_mod (n + 7) 8
  have h8 : (n + 7) % 8 < 8 := Nat.mod_lt _ (by omega)
  unfold cmsgAlign
  omega

lemma cmsgAlign_lt (n : Nat) : cmsgAlign n < n + 8 := by
  have h := Nat.div_add_mod (n + 7) 8
  unfold cmsgAlign
  omega

lemma cmsgAlign_dvd (n : Nat) : 8 ∣ cmsgAlign n := Dvd.intro _ (Nat.mul_comm _ _)

lemma cmsgAlign_least (n m : Nat) (hnm : n ≤ m) (hd : 8 ∣ m) : cmsgAlign n ≤ m := by
  obtain ⟨k, rfl⟩ := hd
  unfold cmsgAlign
  omega

lemma byteAt_set_ne (l : List Nat) {i j : Nat} (v : Nat) (h : i ≠ j) :
    byteAt (l.set i v) j = byteAt l j := by
  simp [byteAt, List.getD_eq_getElem?_getD, List.getElem?_set_ne h]

lemma byteAt_set_zero (l : List Nat) (i : Nat) : byteAt (l.set i 0) i = 0 := by
  by_cases h : i < l.length
  · simp [byteAt, List.getD_eq_getElem?_getD, List.getElem?_set_self h]
  · rw [List.set_eq_of_length_le (by omega)]
    simp [byteAt, List.getD_eq_getElem?_getD, List.getElem?_eq_none_iff.mpr (show l.length ≤ i by omega)]

lemma byteAt_zeroPadAt_ne {off j : Nat} (l : List Nat)
    (h : j < off + 4 ∨ off + 8 ≤ j) : byteAt (zeroPadAt l off) j = byteAt l j := by
  unfold zeroPadAt
  rw [byteAt_set_ne _ _ (by omega), byteAt_set_ne _ _ (by omega),
    byteAt_set_ne _ _ (by omega), byteAt_set_ne _ _ (by omega)]

lemma byteAt_zeroPadAt_pad {off j : Nat} (l : List Nat)
    (h1 : off + 4 ≤ j) (h2 : j < off + 8) : byteAt (zeroPadAt l off) j = 0 := by
  unfold zeroPadAt
  have : j = off + 4 ∨ j = off + 5 ∨ j = off + 6 ∨ j = off + 7 := by omega
  rcases this with rfl | rfl | rfl | rfl
  · rw [byteAt_set_ne _ _ (by omega), byteAt_set_ne _ _ (by omega),
      byteAt_set_ne _ _ (by omega), byteAt_set_zero]
  · rw [byteAt_set_ne _ _ (by omega), byteAt_set_ne _ _ (by omega), byteAt_set_zero]
  · rw [byteAt_set_ne _ _ (by omega), byteAt_set_zero]
  · rw [byteAt_set_zero]

lemma cmsgLen32_zeroPadAt (l : List Nat) (off : Nat) :
    cmsgLen32 (zeroPadAt l off) off = cmsgLen32 l off := by
  unfold cmsgLen32
  rw [byteAt_zeroPadAt_ne _ (by omega), byteAt_zeroPadAt_ne _ (by omega),
    byteAt_zeroPadAt_ne _ (by omega), byteAt_zeroPadAt_ne _ (by omega)]

lemma visitsFrom_le (fuel : Nat) :
    ∀ ctl L off o, o ∈ visitsFrom fuel ctl L off → off ≤ o := by
  induction fuel with
  | zero => intro ctl L off o h; simp [visitsFrom] at h
  | succ fuel ih =>
    intro ctl L off o h
    unfold visitsFrom at h
    split at h
    · rcases List.mem_cons.mp h with rfl | h'
      · exact Nat.le_refl o
      · exact Nat.le_trans (Nat.le_add_right _ _) (ih _ _ _ _ h')
    · rcases List.mem_singleton.mp h with rfl
      exact Nat.le_refl o

lemma repackFrom_byteAt_stable (fuel : Nat) :
    ∀ ctl L off j, (∀ o ∈ visitsFrom fuel ctl L off, j < o + 4 ∨ o + 8 ≤ j) →
      byteAt (repackFrom fuel ctl L off) j = byteAt ctl j := by
  induction fuel with
  | zero => intro ctl L off j _; rfl
  | succ fuel ih =>
    intro ctl L off j hj
    have hoff : j < off + 4 ∨ off + 8 ≤ j := by
      apply hj
      unfold visitsFrom
      split
      · exact List.mem_cons_self _ _
      · exact List.mem_singleton.mpr rfl
    unfold repackFrom
    split
    · rename_i hg
      rw [ih (zeroPadAt ctl off) L _ j ?_, byteAt_zeroPadAt_ne _ hoff]
      intro o ho
      apply hj
      unfold visitsFrom
      rw [if_pos hg]
      exact List.mem_cons_of_mem _ ho
    · exact byteAt_zeroPadAt_ne _ hoff

lemma repackFrom_pad_zero (fuel : Nat) :
    ∀ ctl L off o, o ∈ visitsFrom fuel ctl L off →
      ∀ j, o + 4 ≤ j → j < o + 8 → byteAt (repackFrom fuel ctl L off) j = 0 := by
  induction fuel with
  | zero => intro ctl L off o ho; simp [visitsFrom] at ho
  | succ fuel ih =>
    intro ctl L off o ho j hj1 hj2
    unfold repackFrom
    unfold visitsFrom at ho
    split
    · rename_i hg
      rw [if_pos hg] at ho
      rcases List.mem_cons.mp ho with rfl | ho'
      · rw [repackFrom_byteAt_stable fuel (zeroPadAt ctl o) L _ j ?_,
          byteAt_zeroPadAt_pad _ hj1 hj2]
        intro o' ho'
        have h1 : o + cmsgAlign (cmsgLen32 (zeroPadAt ctl o) o) ≤ o' :=
          visitsFrom_le fuel _ _ _ _ ho'
        have h2 : sizeofCmsghdr ≤ cmsgLen32 (zeroPadAt ctl o) o := hg.1
        have h3 := cmsgAlign_ge (cmsgLen32 (zeroPadAt ctl o) o)
        unfold sizeofCmsghdr at h2
        omega
      · exact ih _ _ _ _ ho' j hj1 hj2
    · rename_i hg
      rw [if_neg hg] at ho
      rcases List.mem_singleton.mp ho with rfl
      exact byteAt_zeroPadAt_pad _ hj1 hj2

lemma visitsFrom_congr (fuel : Nat) :
    ∀ (L : Nat) (ctl ctl' : List Nat) (off : Nat),
      (∀ j, off ≤ j → byteAt ctl j = byteAt ctl' j) →
      visitsFrom fuel ctl L off = visitsFrom fuel ctl' L off := by
  induction fuel with
  | zero => intro L ctl ctl' off _; rfl
  | succ fuel ih =>
    intro L ctl ctl' off hagree
    have hlen : cmsgLen32 (zeroPadAt ctl off) off = cmsgLen32 (zeroPadAt ctl' off) off := by
      unfold cmsgLen32
      rw [byteAt_zeroPadAt_ne _ (by omega), byteAt_zeroPadAt_ne _ (by omega),
        byteAt_zeroPadAt_ne _ (by omega), byteAt_zeroPadAt_ne _ (by omega),
        byteAt_zeroPadAt_ne _ (by omega), byteAt_zeroPadAt_ne _ (by omega),
        byteAt_zeroPadAt_ne _ (by omega), byteAt_zeroPadAt_ne _ (by omega),
        hagree off (by omega), hagree (off + 1) (by omega),
        hagree (off + 2) (by omega), hagree (off + 3) (by omega)]
    have hpad : ∀ j, off ≤ j →
        byteAt (zeroPadAt ctl off) j = byteAt (zeroPadAt ctl' off) j := by
      intro j hjoff
      by_cases hj : j < off + 4 ∨ off + 8 ≤ j
      · rw [byteAt_zeroPadAt_ne _ hj, byteAt_zeroPadAt_ne _ hj, hagree j hjoff]
      · rw [byteAt_zeroPadAt_pad _ (by omega) (by omega),
          byteAt_zeroPadAt_pad _ (by omega) (by omega)]
    unfold visitsFrom
    rw [hlen]
    split
    · rw [ih L _ _ _ fun j hj => hpad j (by
        have := cmsgAlign_ge (cmsgLen32 (zeroPadAt ctl' off) off)
        omega)]
    · rfl

lemma visitsFrom_head (fuel : Nat) (ctl : List Nat) (L off : Nat) :
    (visitsFrom (fuel + 1) ctl L off).head? = some off := by
  unfold visitsFrom
  split <;> rfl

lemma visitsFrom_chain (fuel : Nat) :
    ∀ ctl L off, L - off ≤ 16 * fuel →
      List.Chain' (cmsgStep ctl L) (visitsFrom fuel ctl L off) ∧
      ∀ o, (visitsFrom fuel ctl L off).getLast? = some o →
        ¬ cmsgHasNext L o (cmsgLen32 ctl o) := by
  induction fuel with
  | zero =>
    intro ctl L off _
    exact ⟨List.chain'_nil, by intro o h; simp [visitsFrom] at h⟩
  | succ fuel ih =>
    intro ctl L off hL
    have hlen : cmsgLen32 (zeroPadAt ctl off) off = cmsgLen32 ctl off :=
      cmsgLen32_zeroPadAt ctl off
    by_cases hg : cmsgHasNext L off (cmsgLen32 (zeroPadAt ctl off) off)
    · have halign := cmsgAlign_ge (cmsgLen32 (zeroPadAt ctl off) off)
      have h16 : sizeofCmsghdr ≤ cmsgLen32 (zeroPadAt ctl off) off := hg.1
      have hspace : cmsgAlign (cmsgLen32 (zeroPadAt ctl off) off) + sizeofCmsghdr < L - off :=
        hg.2
      unfold sizeofCmsghdr at h16 hspace
      have hcongr : visitsFrom fuel (zeroPadAt ctl off) L
            (off + cmsgAlign (cmsgLen32 (zeroPadAt ctl off) off)) =
          visitsFrom fuel ctl L
            (off + cmsgAlign (cmsgLen32 (zeroPadAt ctl off) off)) := by
        apply visitsFrom_congr
        intro j hj
        exact byteAt_zeroPadAt_ne _ (by omega)
      have hvis : visitsFrom (fuel + 1) ctl L off =
          off :: visitsFrom fuel ctl L
            (off + cmsgAlign (cmsgLen32 (zeroPadAt ctl off) off)) := by
        rw [← hcongr]
        simp only [visitsFrom, if_pos hg]
      have hrec := ih ctl L (off + cmsgAlign (cmsgLen32 (zeroPadAt ctl off) off))
        (by omega)
      have hfuel : 1 ≤ fuel := by omega
      obtain ⟨f, rfl⟩ : ∃ f, fuel = f + 1 := ⟨fuel - 1, by omega⟩
      have hhead := visitsFrom_head f ctl L
        (off + cmsgAlign (cmsgLen32 (zeroPadAt ctl off) off))
      rcases htail : visitsFrom (f + 1) ctl L
          (off + cmsgAlign (cmsgLen32 (zeroPadAt ctl off) off)) with _ | ⟨a, rest⟩
      · rw [htail] at hhead; simp at hhead
      · rw [htail] at hhead hrec
        have ha : a = off + cmsgAlign (cmsgLen32 (zeroPadAt ctl off) off) := by
          simpa using hhead
        constructor
        · rw [hvis, htail, List.chain'_cons]
          refine ⟨⟨?_, ?_⟩, hrec.1⟩
          · rw [← hlen]; exact hg
          · rw [ha, hlen]
        · intro o ho
          rw [hvis, htail, List.getLast?_cons_cons] at ho
          exact hrec.2 o ho
    · have hvis : visitsFrom (fuel + 1) ctl L off = [off] := by
        unfold visitsFrom
        rw [if_neg hg]
      rw [hvis]
      refine ⟨List.chain'_singleton _, ?_⟩
      intro o ho
      simp at ho
      rcases ho with rfl
      rw [← hlen]
      exact hg

/-- Claim C1: for every message descriptor whose control-data length exceeds
the scratch-buffer capacity (`sizeof chbuf` = 1056 bytes), `sendmsg` on the
repacking platform returns -1 with `errno = ENOMEM` and never invokes the
underlying transmit primitive `ax_sendmsg` (the outcome is `err`, on which
`sendmsgRun` never consults the primitive). -/
theorem claim_C1 (m : Msghdr) (h : chbufSize < m.msg_controllen) :
    sendmsg (some m) = SendmsgOutcome.err ENOMEM := by
  have h0 : m.msg_controllen ≠ 0 := by
    have hc : 0 < chbufSize := by decide
    omega
  simp [sendmsg, h0, h]

/-- Witness for C1: a descriptor with a 1057-byte control length. -/
theorem claim_C1_witness :
    chbufSize < msgOversized.msg_controllen ∧
    sendmsg (some msgOversized) = SendmsgOutcome.err ENOMEM :=
  ⟨by decide, claim_C1 msgOversized (by decide)⟩

/-- Claim C2 (amended): the repacking pass zeroes the 4-byte platform-reserved
padding field (bytes `o+4 .. o+7`) of every record offset `o` it visits, and
leaves every byte outside those visited padding ranges — each record's
length, level, type and payload bytes — unchanged.  Reserved fields of
records the traversal does not visit are transmitted as supplied by the
caller (see the counterexample for the original universal form). -/
theorem claim_C2 (ctl : List Nat) (L j : Nat) :
    ((∃ o ∈ visitsControl L ctl, o + 4 ≤ j ∧ j < o + 8) →
      byteAt (repackControl L ctl) j = 0) ∧
    ((∀ o ∈ visitsControl L ctl, j < o + 4 ∨ o + 8 ≤ j) →
      byteAt (repackControl L ctl) j = byteAt ctl j) := by
  unfold repackControl visitsControl
  by_cases hL : sizeofCmsghdr ≤ L
  · simp only [if_pos hL]
    constructor
    · rintro ⟨o, ho, h1, h2⟩
      exact repackFrom_pad_zero L ctl L 0 o ho j h1 h2
    · intro hstable
      exact repackFrom_byteAt_stable L ctl L 0 j hstable
  · constructor
    · rintro ⟨o, ho, _, _⟩
      rw [if_neg hL] at ho
      simp at ho
    · intro _
      rw [if_neg hL]

/-- Counterexample for C2 as stated: `ctlTrailing` is a well-formed 32-byte
control block (two 16-byte records, the second being a trailing header-only
record whose reserved byte 20 the caller set to 171).  It fits the scratch
buffer, yet after `sendmsg`'s repacking the transmitted control block still
carries 171 in that reserved field: the `CMSG_NXTHDR` walk never visits the
exact-fit trailing record, so not all wire reserved fields read as zero. -/
theorem claim_C2_counterexample :
    byteAt (sentControl (sendmsg (some msgTrailing))) 20 = 171 ∧
    byteAt ctlTrailing 20 = 171 ∧ (171 : Nat) ≠ 0 := by
  refine ⟨?_, by decide, by decide⟩
  decide

/-- Witness for C2: on `ctlTrailing`, byte 4 (reserved field of the visited
first record) reads zero after repacking, and byte 8 (the first record's
level field) is unchanged. -/
theorem claim_C2_witness :
    (∃ o ∈ visitsControl 32 ctlTrailing, o + 4 ≤ 4 ∧ 4 < o + 8) ∧
    byteAt (repackControl 32 ctlTrailing) 4 = 0 ∧
    (∀ o ∈ visitsControl 32 ctlTrailing, 8 < o + 4 ∨ o + 8 ≤ 8) ∧
    byteAt (repackControl 32 ctlTrailing) 8 = byteAt ctlTrailing 8 :=
  ⟨by decide, (claim_C2 ctlTrailing 32 4).1 (by decide),
   by decide, (claim_C2 ctlTrailing 32 8).2 (by decide)⟩

/-- Claim C3 (amended): the traversal starts at offset 0, and only when the
buffer holds at least one full header; successive visited offsets advance by
the current record's declared length rounded up to the next machine-word
boundary (`cmsgAlign`, characterized below as the least multiple of 8 not
smaller than its argument); and a next record is visited exactly when the
current record's declared length is at least a full header and its aligned
footprint plus a full header is strictly less than the space remaining from
the current record to the end of the buffer (`cmsgHasNext`) — strictly
more restrictive at the boundary than the spec's "remaining space sufficient
to contain another full header" (see the counterexample). -/
theorem claim_C3 (ctl : List Nat) (L : Nat) :
    (L < sizeofCmsghdr → visitsControl L ctl = []) ∧
    (sizeofCmsghdr ≤ L →
      (visitsControl L ctl).head? = some 0 ∧
      List.Chain' (cmsgStep ctl L) (visitsControl L ctl) ∧
      ∀ o, (visitsControl L ctl).getLast? = some o →
        ¬ cmsgHasNext L o (cmsgLen32 ctl o)) ∧
    (∀ n, n ≤ cmsgAlign n ∧ 8 ∣ cmsgAlign n ∧
      ∀ m, n ≤ m → 8 ∣ m → cmsgAlign n ≤ m) := by
  refine ⟨?_, ?_, fun n =>
    ⟨cmsgAlign_ge n, cmsgAlign_dvd n, fun m hm hd => cmsgAlign_least n m hm hd⟩⟩
  · intro hlt
    unfold visitsControl
    rw [if_neg (Nat.not_le.mpr hlt)]
  · intro hle
    unfold visitsControl
    simp only [if_pos hle]
    have hchain := visitsFrom_chain L ctl L 0 (by omega)
    refine ⟨?_, hchain.1, hchain.2⟩
    unfold sizeofCmsghdr at hle
    obtain ⟨f, rfl⟩ : ∃ f, L = f + 1 := ⟨L - 1, by omega⟩
    exact visitsFrom_head f ctl (f + 1) 0

/-- Counterexample for C3 as stated: in `ctlTrailing` (length 32), after the
record at offset 0 the remaining space (16 bytes) is sufficient to contain
another full header and the current declared length (16) does not run past
the end of the buffer — the spec-side condition `specNextRecordExists`
holds — yet the traversal stops after offset 0: `CMSG_NXTHDR` requires
strictly more than a full header of remaining space. -/
theorem claim_C3_counterexample :
    specNextRecordExists ctlTrailing 32 0 ∧ visitsControl 32 ctlTrailing = [0] := by
  constructor
  · decide
  · decide

/-- Witness for C3 on concrete inputs: a 12-byte buffer yields no records; on
`ctlTrailing` the first record is at offset 0, the chain property holds, and
the `CMSG_NXTHDR` guard fails at the last visited record. -/
theorem claim_C3_witness :
    visitsControl 12 ctlTrailing = [] ∧
    (visitsControl 32 ctlTrailing).head? = some 0 ∧
    List.Chain' (cmsgStep ctlTrailing 32) (visitsControl 32 ctlTrailing) ∧
    ¬ cmsgHasNext 32 0 (cmsgLen32 ctlTrailing 0) :=
  ⟨(claim_C3 ctlTrailing 12).1 (by decide),
   ((claim_C3 ctlTrailing 32).2.1 (by decide)).1,
   ((claim_C3 ctlTrailing 32).2.1 (by decide)).2.1,
   ((claim_C3 ctlTrailing 32).2.1 (by decide)).2.2 0 (by decide)⟩

/-- Claim C4: the scratch capacity derived from the 255-descriptor maximum
admits a control block of one record with 253 descriptor entries
(`CMSG_SPACE(253*4) = 1032 ≤ 1056`, and `sendmsg` reaches the transmit
primitive), while a block sized for 400 entries in one record
(`CMSG_SPACE(400*4) = 1616 > 1056`) is rejected with `ENOMEM`. -/
theorem claim_C4 :
    cmsgLen32 ctl253 0 = sizeofCmsghdr + 253 * 4 ∧
    CMSG_SPACE (253 * 4) ≤ chbufSize ∧
    isSend (sendmsg (some msg253)) = true ∧
    chbufSize < CMSG_SPACE (400 * 4) ∧
    sendmsg (some msg400) = SendmsgOutcome.err ENOMEM := by
  refine ⟨by decide, by decide, rfl, by decide, rfl⟩

/-- Claim C5: for every flags bitset with a bit outside
`{SOCK_CLOEXEC, SOCK_NONBLOCK}` (i.e. `flg & ~(SOCK_CLOEXEC|SOCK_NONBLOCK)`
is non-zero), `accept4` returns -1 with `errno = EINVAL`, makes no call to
the underlying `accept` primitive and no `fcntl` sub-call, for every
behaviour of the underlying primitives. -/
theorem claim_C5 (env : AcceptEnv) (flg : Nat) (h0 : flg ≠ 0)
    (h : flg &&& acceptFlagComplement ≠ 0) :
    accept4 env flg =
      { ret := -1, errno := some EINVAL, acceptCalls := 0, fcntlCalls := [] } := by
  simp [accept4, h0, h]

/-- Witness for C5: flag bit 0 is outside the recognized pair. -/
theorem claim_C5_witness :
    (1 : Nat) ≠ 0 ∧ (1 : Nat) &&& acceptFlagComplement ≠ 0 ∧
    accept4 env0 1 =
      { ret := -1, errno := some EINVAL, acceptCalls := 0, fcntlCalls := [] } :=
  ⟨by decide, by decide, claim_C5 env0 1 (by decide) (by decide)⟩

lemma accept4_valid (env : AcceptEnv) (flg : Nat) (h0 : flg ≠ 0)
    (h : flg &&& acceptFlagComplement = 0) :
    (env.acceptRet < 0 →
      accept4 env flg =
        { ret := env.acceptRet, errno := none, acceptCalls := 1, fcntlCalls := [] }) ∧
    (0 ≤ env.acceptRet →
      (accept4 env flg).ret = env.acceptRet ∧ (accept4 env flg).errno = none ∧
        (accept4 env flg).acceptCalls = 1) := by
  constructor
  · intro hneg
    simp [accept4, h0, h, hneg]
  · intro hpos
    have hneg : ¬ env.acceptRet < 0 := by omega
    simp [accept4, h0, h, hneg]

/-- Claim C6: for every non-zero flags bitset that is a subset of
`{SOCK_CLOEXEC, SOCK_NONBLOCK}`, if the underlying `accept` primitive fails
its result is propagated unchanged with no `fcntl` sub-call; if it succeeds,
`accept4` returns the accepted descriptor — regardless of the results the
environment assigns to the `fcntl` F_SETFD/F_SETFL sub-calls, which the
code discards (the conclusion holds for every `env.fcntlRet`). -/
theorem claim_C6 (env : AcceptEnv) (c n : Bool) (hcn : (c || n) = true) :
    (env.acceptRet < 0 →
      accept4 env (acceptFlagOf c n) =
        { ret := env.acceptRet, errno := none, acceptCalls := 1, fcntlCalls := [] }) ∧
    (0 ≤ env.acceptRet →
      (accept4 env (acceptFlagOf c n)).ret = env.acceptRet ∧
        (accept4 env (acceptFlagOf c n)).errno = none ∧
        (accept4 env (acceptFlagOf c n)).acceptCalls = 1) := by
  cases c <;> cases n
  · simp at hcn
  · exact accept4_valid env _ (by decide) (by decide)
  · exact accept4_valid env _ (by decide) (by decide)
  · exact accept4_valid env _ (by decide) (by decide)

/-- Witness for C6: with a failing `accept` primitive the failure -3 is
propagated; with a succeeding `accept` primitive and an always-failing
`fcntl` primitive the accepted descriptor 5 is still returned. -/
theorem claim_C6_witness :
    (envAcceptFail.acceptRet < 0 ∧
      accept4 envAcceptFail (acceptFlagOf true false) =
        { ret := envAcceptFail.acceptRet, errno := none, acceptCalls := 1,
          fcntlCalls := [] }) ∧
    (0 ≤ envFcntlFail.acceptRet ∧
      (accept4 envFcntlFail (acceptFlagOf true true)).ret = envFcntlFail.acceptRet ∧
        (accept4 envFcntlFail (acceptFlagOf true true)).errno = none ∧
        (accept4 envFcntlFail (acceptFlagOf true true)).acceptCalls = 1) :=
  ⟨⟨by decide, (claim_C6 envAcceptFail true false rfl).1 (by decide)⟩,
   ⟨by decide, (claim_C6 envFcntlFail true true rfl).2 (by decide)⟩⟩

/-- Claim C7: with a zero-length control block, `sendmsg` passes every other
message field (name, name length, I/O segments, segment count, control
pointer, control length, flags) unchanged to the underlying transmit
primitive — only the two caller-undefined reserved padding fields are
cleared in the working copy, per the working-copy step of the design — and
the primitive's result is returned unchanged. -/
theorem claim_C7 (m : Msghdr) (ax : Option Msghdr → Int) (h : m.msg_controllen = 0) :
    sendmsg (some m) = SendmsgOutcome.send (some { m with __pad1 := 0, __pad2 := 0 }) ∧
    sendmsgRun ax (some m) = ax (some { m with __pad1 := 0, __pad2 := 0 }) := by
  have h1 : sendmsg (some m) =
      SendmsgOutcome.send (some { m with __pad1 := 0, __pad2 := 0 }) := by
    simp [sendmsg, h]
  exact ⟨h1, by simp only [sendmsgRun, h1]⟩

/-- Witness for C7: a concrete descriptor with empty control data and
nonzero reserved fields is forwarded with only the reserved fields
cleared, and the primitive's result (42) is returned. -/
theorem claim_C7_witness :
    msgNoCtl.msg_controllen = 0 ∧
    sendmsg (some msgNoCtl) =
      SendmsgOutcome.send (some { msgNoCtl with __pad1 := 0, __pad2 := 0 }) ∧
    sendmsgRun axConst (some msgNoCtl) =
      axConst (some { msgNoCtl with __pad1 := 0, __pad2 := 0 }) :=
  ⟨rfl, (claim_C7 msgNoCtl axConst rfl).1, (claim_C7 msgNoCtl axConst rfl).2⟩

/-- Claim C8: for every descriptor, level, option name and caller-provided
output buffers, `getsockopt` returns -1 signalling not-implemented
(`ENOSYS`) and leaves `optval` and `optlen` untouched. -/
theorem claim_C8 (fd level optname : Int) (optval : List Nat) (optlen : Nat) :
    getsockopt fd level optname optval optlen =
      { ret := -1, errno := some ENOSYS, optvalOut := optval, optlenOut := optlen } :=
  rfl

/-- Claim C9: for every input, `setsockopt` returns 0, raises no error
condition (in particular never `EINVAL`), and only emits one diagnostic
record carrying the call's arguments (including the `*(int *)optval`
read). -/
theorem claim_C9 (fd level optname : Int) (optval : List Nat) (optlen : Nat) :
    (setsockopt fd level optname optval optlen).ret = 0 ∧
    (setsockopt fd level optname optval optlen).errno = none ∧
    (setsockopt fd level optname optval optlen).diagnostics =
      [(fd, level, optname, readInt32 optval, optlen)] :=
  ⟨rfl, rfl, rfl⟩

/-- Claim C10: a null message-descriptor pointer skips the copy, validation
and repacking entirely — `sendmsg` invokes the underlying transmit primitive
directly with the null pointer and returns its result unchanged. -/
theorem claim_C10 :
    sendmsg none = SendmsgOutcome.send none ∧
    ∀ ax : Option Msghdr → Int, sendmsgRun ax none = ax none :=
  ⟨rfl, fun _ => rfl⟩
